import Mathlib

/-!
Verification of llvm2c: unary expression nodes and the arrow pass.

A shallow embedding of `Expr/UnaryExpr.cpp` (constructors and `toString` of
`RefExpr`, `DerefExpr`, `RetExpr`, `CastExpr`) and of `parser/arrowify.cpp`
(`ArrowifyVisitor::simplify`, `ArrowifyVisitor::visit(GepExpr&)`, `arrowify`).

Nodes are modelled as trees: an operand pointer `Expr*` becomes the operand
tree, a nullable operand becomes an `Option`.  An in-place update of a child
slot becomes the parent rebuilt around the new child.  Trees are faithful where
no node is reached along two paths; where ownership and shared operands
matter, the section on objects in memory keeps addresses.
-/

namespace Llvm2c

/-! ## Types -/

/-- Modelled from the spec: the `Type` hierarchy (`Type.h` is not among the
available sources).  Variants as listed in the data model: primitive, pointer,
struct, array, function. -/
inductive CType where
  | primitive (width : Nat) (isSigned : Bool)
  | pointer (type : CType)
  | struct (name : String) (fields : List CType)
  | array (element : CType) (length : Nat)
  | function (ret : CType) (params : List CType)

mutual
/-- Modelled from the spec: `Type::clone`, a deep and independent copy. -/
def CType.clone : CType → CType
  | .primitive w s => .primitive w s
  | .pointer t => .pointer t.clone
  | .struct n fs => .struct n (CType.cloneAll fs)
  | .array e l => .array e.clone l
  | .function r ps => .function r.clone (CType.cloneAll ps)
/-- Clone of every type of a list, in order. -/
def CType.cloneAll : List CType → List CType
  | [] => []
  | t :: ts => t.clone :: CType.cloneAll ts
end

/-- Modelled from the spec: a struct descriptor, a name and the ordered
fields (type and field name). -/
structure Struct where
  name : String
  items : List (CType × String)

/-! ## Expression nodes -/

/-- Expression nodes.  Every node stores its own type (`ExprBase::setType`).
`value` stands for a node of any class that is not part of this development (a
variable, a constant, ...): it has no operand and carries its text and type.
`ref`, `deref`, `ret`, `cast` are the classes of `UnaryExpr.h`; their `expr`
field is the member `UnaryExpr::expr`, nullable where `toString` tests it
against `nullptr`.  `structElement`, `arrow` and `gep` carry the members read
by `arrowify.cpp`: `strct`, `expr`, `element` and `indices`. -/
inductive Expr where
  | value (text : String) (type : CType)
  | ref (expr : Expr) (type : CType)
  | deref (expr : Expr) (type : CType)
  | ret (expr : Option Expr) (type : CType)
  | cast (expr : Option Expr) (type : CType)
  | structElement (strct : Struct) (expr : Expr) (element : Nat) (type : CType)
  | arrow (strct : Struct) (expr : Expr) (element : Nat) (type : CType)
  | gep (indices : List Expr) (type : CType)

/-- The stored type of a node: `Expr::getType`. -/
def Expr.getType : Expr → CType
  | .value _ t => t
  | .ref _ t => t
  | .deref _ t => t
  | .ret _ t => t
  | .cast _ t => t
  | .structElement _ _ _ t => t
  | .arrow _ _ _ t => t
  | .gep _ t => t

/-- The renderers this development does not have the source of: `toString`
of the node classes declared in `Expr.h` (`StructElement`, `ArrowExpr`,
`GepExpr`) and `Type::toString`.  They are parameters of `Expr.toString`. -/
structure Printer where
  exprText : Expr → String
  typeText : CType → String

/-- Rendering of a node: `RefExpr::toString`, `DerefExpr::toString`,
`RetExpr::toString`, `CastExpr::toString` of `UnaryExpr.cpp`.  The
`dynamic_cast<RefExpr*>` test of `DerefExpr::toString` is the match on `ref`. -/
def Expr.toString (P : Printer) : Expr → String
  | .value text _ => text
  | .ref e _ => "&(" ++ e.toString P ++ ")"
  | .deref (.ref x _) _ => x.toString P
  | .deref e _ => "*(" ++ e.toString P ++ ")"
  | .ret none _ => "return" ++ ";"
  | .ret (some e) _ => ("return" ++ (" " ++ e.toString P)) ++ ";"
  | .cast none t => "(" ++ P.typeText t ++ ")"
  | .cast (some e) t => ("(" ++ P.typeText t ++ ")") ++ e.toString P
  | .structElement s e i t => P.exprText (.structElement s e i t)
  | .arrow s e i t => P.exprText (.arrow s e i t)
  | .gep idx t => P.exprText (.gep idx t)

/-! ## Constructors of `UnaryExpr.cpp` -/

/-- Modelled from the spec: the failure kinds of the error taxonomy. -/
inductive Failure where
  | TypeMismatch
  | DuplicateRegistration
  | UnresolvedPhi
  | InternalConsistency
deriving DecidableEq

/-- What running a constructor gives.  `node` is normal completion.
`nullDeref`: a member function is called through a null `Expr*`.
`badCast`: a `static_cast<PointerType*>` is applied to a type object that is
not a `PointerType` and the read of its `type` member finds no type object;
the source performs no check there and the language defines no result.
`failure` is a signalled
failure of the given kind; no constructor of `UnaryExpr.cpp` produces it. -/
inductive Outcome (α : Type) where
  | node (a : α)
  | nullDeref
  | badCast
  | failure (kind : Failure)

/-- Sequencing: a constructor body runs after its base-class constructor has
completed. -/
def Outcome.bind {α β : Type} : Outcome α → (α → Outcome β) → Outcome β
  | .node a, f => f a
  | .nullDeref, _ => .nullDeref
  | .badCast, _ => .badCast
  | .failure k, _ => .failure k

/-- The members a `UnaryExpr` base object holds once its constructor is done. -/
structure UnaryExpr where
  expr : Option Expr
  type : CType

/-- Constructor `UnaryExpr::UnaryExpr(Expr *expr)`: stores the operand, then
`setType(expr->getType()->clone())`, which calls through `expr`. -/
def UnaryExpr.mk? (expr : Option Expr) : Outcome UnaryExpr :=
  match expr with
  | none => .nullDeref
  | some e => .node { expr := expr, type := e.getType.clone }

/-- Constructor `RefExpr::RefExpr(Expr* expr)`:
`setType(std::make_unique<PointerType>(expr->getType()->clone()))`. -/
def RefExpr.mk (expr : Option Expr) : Outcome Expr :=
  (UnaryExpr.mk? expr).bind fun u =>
    match u.expr with
    | none => .nullDeref
    | some e => .node (.ref e (.pointer e.getType.clone))

/-- What the read `PT->type` finds when `PT` comes from the unchecked
`static_cast<PointerType*>` of a type object that is not a `PointerType`.  The
source does not determine it, it depends on how the type classes lie in
memory: `some t` when the object holds a type object where a `PointerType`
holds its member `type`, `none` when it holds none there.  It is a parameter
of `DerefExpr.mk`. -/
abbrev CastRead := CType → Option CType

/-- Constructor `DerefExpr::DerefExpr(Expr* expr)`:
`auto PT = static_cast<PointerType*>(expr->getType()); setType(PT->type->clone())`.
There is no test of the operand's type: over a `PointerType` the member read
is the pointee, over any other type object it is what `read` finds there, and
the node is built all the same when it finds a type object. -/
def DerefExpr.mk (read : CastRead) (expr : Option Expr) : Outcome Expr :=
  (UnaryExpr.mk? expr).bind fun u =>
    match u.expr with
    | none => .nullDeref
    | some e =>
      match e.getType with
      | .pointer t => .node (.deref e t.clone)
      | ty =>
        match read ty with
        | some t => .node (.deref e t.clone)
        | none => .badCast

/-- Constructor `RetExpr::RetExpr(Expr* ret) : UnaryExpr(ret) { }`. -/
def RetExpr.mk (ret : Option Expr) : Outcome Expr :=
  (UnaryExpr.mk? ret).bind fun u => .node (.ret u.expr u.type)

/-- Constructor `RetExpr::RetExpr() : UnaryExpr(nullptr) { }`. -/
def RetExpr.mkVoid : Outcome Expr :=
  (UnaryExpr.mk? none).bind fun u => .node (.ret u.expr u.type)

/-- Constructor `CastExpr::CastExpr(Expr* expr, std::unique_ptr<Type> type)`:
after the base constructor, `setType(std::move(type))`. -/
def CastExpr.mk (expr : Option Expr) (type : CType) : Outcome Expr :=
  (UnaryExpr.mk? expr).bind fun u => .node (.cast u.expr type)

/-! ## The arrow pass (`parser/arrowify.cpp`) -/

/-- Modelled from the spec: the node type the constructors of `StructElement`
and `ArrowExpr` (declared in `Expr.h`, not among the available sources) give a
field access, the descriptor's field type at the element index.  No statement
below depends on it. -/
def Struct.fieldType (strct : Struct) (element : Nat) : CType :=
  match strct.items.get? element with
  | some item => item.1.clone
  | none => .primitive 0 false

/-- Modelled from the spec: constructor `ArrowExpr(strct, expr, element)`, a
node carrying the struct descriptor, the base expression and the field index. -/
def ArrowExpr.mk (strct : Struct) (expr : Expr) (element : Nat) : Expr :=
  .arrow strct expr element (strct.fieldType element)

/-- The state of an `ArrowifyVisitor`: its member
`std::vector<std::unique_ptr<Expr>> ownership`.  An entry is `none` when the
`unique_ptr` is null, as it is after it has been moved from. -/
structure ArrowifyVisitor where
  ownership : List (Option Expr)

/-- The visitor as `ArrowifyVisitor visitor;` declares it: an empty buffer. -/
def ArrowifyVisitor.fresh : ArrowifyVisitor := { ownership := [] }

/-- Body of `ArrowifyVisitor::simplify` on a non-null node.  On a
`StructElement` whose `expr` is a `DerefExpr` the new arrow is built as
`ArrowExpr(SE->strct, SE->expr, SE->element)`, pushed on `ownership` and
returned; any other node is returned as it is. -/
def ArrowifyVisitor.simplifyNode (expr : Expr) (v : ArrowifyVisitor) : Expr × ArrowifyVisitor :=
  match expr with
  | .structElement strct (.deref de dt) element _ =>
    let arrow := ArrowExpr.mk strct (.deref de dt) element
    (arrow, { ownership := v.ownership ++ [some arrow] })
  | e => (e, v)

/-- The method `ArrowifyVisitor::simplify(Expr* expr)`.  Both casts are
`dyn_cast_or_null`, so a null `expr` reaches `return expr`. -/
def ArrowifyVisitor.simplify (expr : Option Expr) (v : ArrowifyVisitor) :
    Option Expr × ArrowifyVisitor :=
  match expr with
  | none => (none, v)
  | some e => (some (v.simplifyNode e).1, (v.simplifyNode e).2)

/-- The replacement made by `ArrowifyVisitor::visit(GepExpr&)` on one index
after that index has been traversed: on a `StructElement` whose `expr` is a
`DerefExpr` the slot receives `ArrowExpr(SE->strct, DE->expr, SE->element)`,
otherwise the slot gets its node back. -/
def ArrowifyVisitor.arrowStep : Expr → Expr
  | .structElement strct (.deref de _) element _ => ArrowExpr.mk strct de element
  | e => e

mutual
/-- Traversal `expr->accept(visitor)`, returning the node as the traversal
leaves it and the visitor afterwards.  The `gep` case is
`ArrowifyVisitor::visit(GepExpr&)`.  Modelled from the spec: the other cases
are the default traversal of `SimplifyingExprVisitor` (not among the available
sources): each child is visited, then its slot receives `simplify(child)`; the
node itself stays in place. -/
def ArrowifyVisitor.accept : Expr → ArrowifyVisitor → Expr × ArrowifyVisitor
  | .value text t, v => (.value text t, v)
  | .ref e t, v =>
    let r := ArrowifyVisitor.accept e v
    let s := r.2.simplifyNode r.1
    (.ref s.1 t, s.2)
  | .deref e t, v =>
    let r := ArrowifyVisitor.accept e v
    let s := r.2.simplifyNode r.1
    (.deref s.1 t, s.2)
  | .ret none t, v => (.ret none t, v)
  | .ret (some e) t, v =>
    let r := ArrowifyVisitor.accept e v
    let s := r.2.simplifyNode r.1
    (.ret (some s.1) t, s.2)
  | .cast none t, v => (.cast none t, v)
  | .cast (some e) t, v =>
    let r := ArrowifyVisitor.accept e v
    let s := r.2.simplifyNode r.1
    (.cast (some s.1) t, s.2)
  | .structElement strct e element t, v =>
    let r := ArrowifyVisitor.accept e v
    let s := r.2.simplifyNode r.1
    (.structElement strct s.1 element t, s.2)
  | .arrow strct e element t, v =>
    let r := ArrowifyVisitor.accept e v
    let s := r.2.simplifyNode r.1
    (.arrow strct s.1 element t, s.2)
  | .gep indices t, v =>
    let r := ArrowifyVisitor.visitIndices indices v
    (.gep r.1 t, r.2)
/-- The loop of `ArrowifyVisitor::visit(GepExpr&)` over `expr.indices`: each
index is traversed, then replaced by an arrow when it matches, and stored back
in its slot.  The steps are trees of their own here; a chain in which an
operand of one step is the node of another slot is the matter of `visitSlots`
below, on objects in memory. -/
def ArrowifyVisitor.visitIndices : List Expr → ArrowifyVisitor → List Expr × ArrowifyVisitor
  | [], v => ([], v)
  | e :: rest, v =>
    let r := ArrowifyVisitor.accept e v
    let tl := ArrowifyVisitor.visitIndices rest r.2
    (ArrowifyVisitor.arrowStep r.1 :: tl.1, tl.2)
end

/-- What the default traversal does with one child slot: the child is
traversed, then `simplify` is applied to it; the first component is the node
the slot holds afterwards. -/
def ArrowifyVisitor.visitChild (e : Expr) (v : ArrowifyVisitor) : Expr × ArrowifyVisitor :=
  (ArrowifyVisitor.accept e v).2.simplifyNode (ArrowifyVisitor.accept e v).1

/-- A block: its statement sequence `expressions` and its ownership list. -/
structure Block where
  expressions : List Expr
  ownership : List (Option Expr)

/-- Modelled from the spec: `Block::addOwnership`, which appends the entry to
the block's ownership list. -/
def Block.addOwnership (b : Block) (e : Option Expr) : Block :=
  { b with ownership := b.ownership ++ [e] }

/-- A function, as `arrowify` sees it: its blocks in the order of the LLVM
function. -/
structure Func where
  blocks : List Block

/-- The statement loop of `arrowify`: `expr->accept(visitor)` on each
statement of the block in order.  The statement slots are not written. -/
def walkStatements : List Expr → ArrowifyVisitor → List Expr × ArrowifyVisitor
  | [], v => ([], v)
  | e :: rest, v =>
    let r := ArrowifyVisitor.accept e v
    let tl := walkStatements rest r.2
    (r.1 :: tl.1, tl.2)

/-- The transfer loop of `arrowify`:
`for (auto&& expr : visitor.ownership) myBlock->addOwnership(std::move(expr))`.
Each entry is handed to the block and its slot of the vector is left null; the
vector keeps its length. -/
def moveOwnership : List (Option Expr) → Block → List (Option Expr) × Block
  | [], b => ([], b)
  | e :: rest, b =>
    let tl := moveOwnership rest (b.addOwnership e)
    (none :: tl.1, tl.2)

/-- One iteration of the block loop of `arrowify`. -/
def arrowifyBlock (b : Block) (v : ArrowifyVisitor) : Block × ArrowifyVisitor :=
  let w := walkStatements b.expressions v
  let m := moveOwnership w.2.ownership { b with expressions := w.1 }
  (m.2, { ownership := m.1 })

/-- The block loop of `arrowify` over the blocks of one function. -/
def arrowifyBlocks : List Block → ArrowifyVisitor → List Block × ArrowifyVisitor
  | [], v => ([], v)
  | b :: rest, v =>
    let r := arrowifyBlock b v
    let tl := arrowifyBlocks rest r.2
    (r.1 :: tl.1, tl.2)

/-- The function loop of `arrowify`, with the one visitor shared by all
functions. -/
def arrowifyFuncs : List Func → ArrowifyVisitor → List Func × ArrowifyVisitor
  | [], v => ([], v)
  | f :: rest, v =>
    let r := arrowifyBlocks f.blocks v
    let tl := arrowifyFuncs rest r.2
    ({ blocks := r.1 } :: tl.1, tl.2)

/-- The pass `arrowify(module, program)`: a fresh `ArrowifyVisitor`, then
every block of every function. -/
def arrowify (program : List Func) : List Func :=
  (arrowifyFuncs program ArrowifyVisitor.fresh).1

/-- The statement in slot `k` of block `bi` of function `fi`, when there is
one. -/
def stmtAt (program : List Func) (fi bi k : Nat) : Option Expr :=
  (program[fi]?).bind fun f => (f.blocks[bi]?).bind fun b => b.expressions[k]?

/-! ## Example data -/

/-- A 32-bit signed integer type. -/
def exI32 : CType := .primitive 32 true

/-- The type `struct Point`, two integer fields. -/
def exPointT : CType := .struct "Point" [exI32, exI32]

/-- The descriptor of `struct Point` with fields `x` and `y`. -/
def exPoint : Struct := { name := "Point", items := [(exI32, "x"), (exI32, "y")] }

/-- A variable `p` of type `struct Point*`. -/
def exP : Expr := .value "p" (.pointer exPointT)

/-- The field access `StructElement(Point, DerefExpr(p), 0)`. -/
def exField : Expr := .structElement exPoint (.deref exP exPointT) 0 exI32

/-- Modelled from the spec: `ExprBase::setType` (declared in `Expr.h`), which
replaces the type the node owns by the given one. -/
def Expr.setType : Expr → CType → Expr
  | .value text _, t => .value text t
  | .ref e _, t => .ref e t
  | .deref e _, t => .deref e t
  | .ret e _, t => .ret e t
  | .cast e _, t => .cast e t
  | .structElement s e i _, t => .structElement s e i t
  | .arrow s e i _, t => .arrow s e i t
  | .gep idx _, t => .gep idx t

/-- The test `dynamic_cast<RefExpr*>(expr) != nullptr` of
`DerefExpr::toString`. -/
def Expr.isRef : Expr → Bool
  | .ref _ _ => true
  | _ => false

/-- The test `dyn_cast_or_null<DerefExpr>(expr) != nullptr` of the arrow
pass, on a non-null node. -/
def Expr.isDeref : Expr → Bool
  | .deref _ _ => true
  | _ => false

/-- The match condition of both paths of the arrow pass: the node is a
`StructElement` and its `expr` is a `DerefExpr` (the two nested
`dyn_cast_or_null` tests). -/
def Expr.isFieldOfDeref : Expr → Bool
  | .structElement _ (.deref _ _) _ _ => true
  | _ => false

/-- Two trees stand for the same node, seen before and after an in-place
update of its child slots: same class and same own members (text, struct
descriptor, field index, type, number of index slots, operand present or
absent); the children may differ. -/
def Expr.sameNode : Expr → Expr → Prop
  | .value a t, .value b u => a = b ∧ t = u
  | .ref _ t, .ref _ u => t = u
  | .deref _ t, .deref _ u => t = u
  | .ret a t, .ret b u => a.isSome = b.isSome ∧ t = u
  | .cast a t, .cast b u => a.isSome = b.isSome ∧ t = u
  | .structElement s _ i t, .structElement r _ j u => s = r ∧ i = j ∧ t = u
  | .arrow s _ i t, .arrow r _ j u => s = r ∧ i = j ∧ t = u
  | .gep l t, .gep m u => l.length = m.length ∧ t = u
  | _, _ => False

/-- The text `s` begins with the text `pre`. -/
def beginsWith (pre s : String) : Prop :=
  pre.data <+: s.data

/-- A printer for the examples; the trees rendered with it have no node of the
classes it stands for. -/
def exPrinter : Printer := { exprText := fun _ => "", typeText := fun _ => "" }

/-- A variable `x` of integer type. -/
def exX : Expr := .value "x" exI32

/-- The node `RefExpr(x)`, of type pointer to integer. -/
def exRef1 : Expr := .ref exX (.pointer exI32)

/-- The node `RefExpr(RefExpr(x))`. -/
def exRef2 : Expr := .ref exRef1 (.pointer (.pointer exI32))

/-- The node `DerefExpr(RefExpr(RefExpr(x)))`, of type pointer to integer. -/
def exDeref1 : Expr := .deref exRef2 (.pointer exI32)

/-- The node `DerefExpr(DerefExpr(RefExpr(RefExpr(x))))`, of integer type. -/
def exDeref2 : Expr := .deref exDeref1 exI32

/-! ## Objects in memory

The definitions above model nodes as trees, which is faithful where no node is
reached along two paths.  The definitions of this section keep addresses: an
operand is the address of a node (`Expr*`), an owner holds the address of the
object it owns (`std::unique_ptr`), and an object that has been destroyed
leaves an empty cell. -/

/-- What running code on objects in memory gives.  `done` is normal
completion.  `nullDeref`: a member function is called through a null pointer.
`dangling`: an object is read through the address of a cell that holds no
live object (it has been destroyed, or was never created).  `outOfFuel`: the
run was cut before it ended; it is no outcome of the source. -/
inductive Run (α : Type) where
  | done (a : α)
  | nullDeref
  | dangling (address : Nat)
  | outOfFuel

/-- Sequencing of two runs. -/
def Run.bind {α β : Type} : Run α → (α → Run β) → Run β
  | .done a, f => f a
  | .nullDeref, _ => .nullDeref
  | .dangling a, _ => .dangling a
  | .outOfFuel, _ => .outOfFuel

/-! ### Type objects -/

/-- The type objects of a run, by address.  A node owns its type through a
`std::unique_ptr<Type>`: what `setType` receives in `UnaryExpr.cpp` is the
result of `clone()`, of `std::make_unique<PointerType>` or a moved
`std::unique_ptr<Type>`; `getType()` gives the address of the owned object.  A
cell is `none` once its object has been destroyed. -/
structure TypeStore where
  cells : List (Option CType)

/-- The type object at an address, when a live one is there. -/
def TypeStore.read (s : TypeStore) (a : Nat) : Option CType :=
  (s.cells[a]?).join

/-- Creation of a type object, at an address that was not in use. -/
def TypeStore.alloc (s : TypeStore) (t : CType) : Nat × TypeStore :=
  (s.cells.length, { cells := s.cells ++ [some t] })

/-- Destruction of the type object at an address. -/
def TypeStore.destroy (s : TypeStore) (a : Nat) : TypeStore :=
  { cells := s.cells.set a none }

/-- Modelled from the spec: `Type::clone()` called on the object at `a`, a deep
copy in an object of its own, whose address is returned. -/
def TypeStore.clone (s : TypeStore) (a : Nat) : Run (Nat × TypeStore) :=
  match s.read a with
  | none => .dangling a
  | some t => .done (s.alloc t.clone)

/-- The member `type` of a node (class `ExprBase`): the address of the type
object the node owns, `none` while the `unique_ptr` is null. -/
structure ExprBase where
  type : Option Nat

/-- Modelled from the spec: `ExprBase::setType(std::unique_ptr<Type> p)`.  The
node becomes the owner of the object at `p`; the object it owned before, if
any, is destroyed by the assignment to the `unique_ptr`. -/
def ExprBase.setType (n : ExprBase) (p : Nat) (s : TypeStore) : ExprBase × TypeStore :=
  ({ type := some p },
    match n.type with
    | none => s
    | some old => s.destroy old)

/-- Constructor `UnaryExpr::UnaryExpr(Expr *expr)` on type objects, for the
node under construction, whose `type` is still null:
`setType(expr->getType()->clone())`. -/
def UnaryExpr.construct (expr : Option ExprBase) (s : TypeStore) : Run (ExprBase × TypeStore) :=
  match expr with
  | none => .nullDeref
  | some x =>
    match x.type with
    | none => .nullDeref
    | some a => (s.clone a).bind fun r => .done (ExprBase.setType { type := none } r.1 r.2)

/-- Constructor `RetExpr::RetExpr(Expr* ret) : UnaryExpr(ret) { }` on type
objects. -/
def RetExpr.construct (ret : Option ExprBase) (s : TypeStore) : Run (ExprBase × TypeStore) :=
  UnaryExpr.construct ret s

/-! ### Node objects -/

/-- A node object of the classes the arrow pass meets.  Operands are
addresses of nodes (`Expr* expr`), owned by someone else; the `indices` of a
`GepExpr` are addresses of nodes the `GepExpr` owns
(`std::unique_ptr<Expr>`).  The type a node owns is left out: the pass does
not read it. -/
inductive Obj where
  | value (text : String)
  | ref (expr : Nat)
  | deref (expr : Nat)
  | ret (expr : Option Nat)
  | cast (expr : Option Nat)
  | structElement (strct : Struct) (expr : Nat) (element : Nat)
  | arrow (strct : Struct) (expr : Nat) (element : Nat)
  | gep (indices : List Nat)

/-- The operand slot `expr` the default traversal descends into, when the
node has one and it is not null. -/
def Obj.operand : Obj → Option Nat
  | .value _ => none
  | .ref e => some e
  | .deref e => some e
  | .ret o => o
  | .cast o => o
  | .structElement _ e _ => some e
  | .arrow _ e _ => some e
  | .gep _ => none

/-- The assignment `expr.expr = ...` to the operand slot of a node. -/
def Obj.setOperand : Obj → Nat → Obj
  | .value text, _ => .value text
  | .ref _, e => .ref e
  | .deref _, e => .deref e
  | .ret _, e => .ret (some e)
  | .cast _, e => .cast (some e)
  | .structElement s _ i, e => .structElement s e i
  | .arrow s _ i, e => .arrow s e i
  | .gep l, _ => .gep l

/-- The node objects of a run, by address; a cell is `none` once its object
has been destroyed. -/
structure Memory where
  cells : List (Option Obj)

/-- The node object at an address, when a live one is there. -/
def Memory.read (m : Memory) (a : Nat) : Option Obj :=
  (m.cells[a]?).join

/-- Creation of a node object (`std::make_unique`), at an address that was
not in use. -/
def Memory.alloc (m : Memory) (o : Obj) : Nat × Memory :=
  (m.cells.length, { cells := m.cells ++ [some o] })

/-- An update of the members of the object at an address. -/
def Memory.write (m : Memory) (a : Nat) (o : Obj) : Memory :=
  { cells := m.cells.set a (some o) }

/-- Destruction of the object at an address. -/
def Memory.destroy (m : Memory) (a : Nat) : Memory :=
  { cells := m.cells.set a none }

/-- The state of the pass on objects: the memory and the visitor's member
`ownership`, a vector of owning pointers (`none` for a null one). -/
structure PassState where
  mem : Memory
  ownership : List (Option Nat)

/-- The method `ArrowifyVisitor::simplify(Expr* expr)` on objects, for a
non-null `expr`.  The two `dyn_cast_or_null` tests read the object at `expr`
and the object at its `expr` member; on a match the new arrow is created with
`SE->expr` as its base, pushed on `ownership`, and its address returned. -/
def simplifyAt (a : Nat) (st : PassState) : Run (Nat × PassState) :=
  match st.mem.read a with
  | none => .dangling a
  | some (.structElement strct d element) =>
    match st.mem.read d with
    | none => .dangling d
    | some (.deref _) =>
      .done ((st.mem.alloc (.arrow strct d element)).1,
        { mem := (st.mem.alloc (.arrow strct d element)).2,
          ownership := st.ownership ++ [some (st.mem.alloc (.arrow strct d element)).1] })
    | some _ => .done (a, st)
  | some _ => .done (a, st)

/-- Lines 57 to 66 of `ArrowifyVisitor::visit(GepExpr&)` on objects, for the
slot `i` of the `GepExpr` at `g`, which holds the address `slot`:
`uptr = std::move(*it)`, the two `dyn_cast_or_null` tests, and on a match the
creation of `ArrowExpr(SE->strct, DE->expr, SE->element)`, the assignment
`uptr = std::move(arrow)`, which destroys the `StructElement` that `uptr`
owned, and `*it = std::move(uptr)`. -/
def replaceSlot (g i slot : Nat) (st : PassState) : Run PassState :=
  match st.mem.read slot with
  | none => .dangling slot
  | some (.structElement strct d element) =>
    match st.mem.read d with
    | none => .dangling d
    | some (.deref q) =>
      match ((st.mem.alloc (.arrow strct q element)).2.destroy slot).read g with
      | some (.gep indices) =>
        .done { mem := ((st.mem.alloc (.arrow strct q element)).2.destroy slot).write g
                  (.gep (indices.set i (st.mem.alloc (.arrow strct q element)).1)),
                ownership := st.ownership }
      | _ => .dangling g
    | some _ => .done st
  | some _ => .done st

mutual
/-- Traversal `expr->accept(visitor)` on objects, for the node at address
`a`, with a bound on the depth of the calls.  A `GepExpr` is handled by
`ArrowifyVisitor::visit(GepExpr&)`.  Modelled from the spec: for the other
classes the default traversal of `SimplifyingExprVisitor`: the operand is
traversed, then `expr.expr = simplify(expr.expr)`. -/
def acceptAt : Nat → Nat → PassState → Run PassState
  | 0, _, _ => .outOfFuel
  | fuel + 1, a, st =>
    match st.mem.read a with
    | none => .dangling a
    | some (.gep _) => visitSlots fuel a 0 st
    | some o =>
      match o.operand with
      | none => .done st
      | some e =>
        (acceptAt fuel e st).bind fun st₁ =>
          match st₁.mem.read a with
          | none => .dangling a
          | some o₁ =>
            match o₁.operand with
            | none => .done st₁
            | some e₁ =>
              (simplifyAt e₁ st₁).bind fun r =>
                .done { mem := r.2.mem.write a (o₁.setOperand r.1), ownership := r.2.ownership }
/-- The loop of `ArrowifyVisitor::visit(GepExpr&)` on objects, from slot `i`
of the `GepExpr` at `g` on: `(*it)->accept(*this)`, then lines 57 to 66, then
the next slot. -/
def visitSlots : Nat → Nat → Nat → PassState → Run PassState
  | 0, _, _, _ => .outOfFuel
  | fuel + 1, g, i, st =>
    match st.mem.read g with
    | some (.gep indices) =>
      match indices[i]? with
      | none => .done st
      | some slot =>
        (acceptAt fuel slot st).bind fun st₁ =>
          (replaceSlot g i slot st₁).bind fun st₂ => visitSlots fuel g (i + 1) st₂
    | _ => .dangling g
end

/-- The descriptor of `struct Outer`, whose field `in` is a `struct Point`. -/
def exOuter : Struct := { name := "Outer", items := [(exPointT, "in")] }

/-- The objects of the index chain of `p->in.y`: the variable `p` at 0,
`DerefExpr(p)` at 1, the step `StructElement(Outer, DerefExpr(p), 0)` at 2,
the step `StructElement(Point, step at 2, 1)` at 3, whose operand is the node
of the first slot, and the `GepExpr` with the slots 2 and 3 at 4. -/
def exChain : Memory :=
  { cells := [some (.value "p"), some (.deref 0), some (.structElement exOuter 1 0),
      some (.structElement exPoint 2 1), some (.gep [2, 3])] }

/-- The objects of the index chain of `&(p->in)`: as `exChain`, with the step
`RefExpr(step at 2)` at 3. -/
def exRefChain : Memory :=
  { cells := [some (.value "p"), some (.deref 0), some (.structElement exOuter 1 0),
      some (.ref 2), some (.gep [2, 3])] }

/-- The objects of a chain with one step: `p` at 0, `DerefExpr(p)` at 1, the
step `StructElement(Outer, DerefExpr(p), 0)` at 2 and the `GepExpr` at 3. -/
def exShortChain : Memory :=
  { cells := [some (.value "p"), some (.deref 0), some (.structElement exOuter 1 0),
      some (.gep [2])] }

/-! ## Lemmas on types -/

mutual
theorem CType.clone_eq : ∀ t : CType, t.clone = t
  | .primitive _ _ => by simp [CType.clone]
  | .pointer t => by simp [CType.clone, CType.clone_eq t]
  | .struct _ fs => by simp [CType.clone, CType.cloneAll_eq fs]
  | .array e _ => by simp [CType.clone, CType.clone_eq e]
  | .function r ps => by simp [CType.clone, CType.clone_eq r, CType.cloneAll_eq ps]
theorem CType.cloneAll_eq : ∀ ts : List CType, CType.cloneAll ts = ts
  | [] => by simp [CType.cloneAll]
  | t :: ts => by simp [CType.cloneAll, CType.clone_eq t, CType.cloneAll_eq ts]
end

/-! ## Lemmas on the constructors -/

theorem RefExpr.mk_some (x : Expr) :
    RefExpr.mk (some x) = .node (.ref x (.pointer x.getType)) := by
  simp [RefExpr.mk, UnaryExpr.mk?, Outcome.bind, CType.clone_eq]

theorem DerefExpr.mk_pointer (read : CastRead) (x : Expr) (T : CType)
    (h : x.getType = .pointer T) :
    DerefExpr.mk read (some x) = .node (.deref x T) := by
  simp [DerefExpr.mk, UnaryExpr.mk?, Outcome.bind, h, CType.clone_eq]

theorem DerefExpr.mk_not_pointer (read : CastRead) (x : Expr)
    (h : ¬ ∃ T, x.getType = .pointer T) :
    DerefExpr.mk read (some x)
      = match read x.getType with
        | some t => .node (.deref x t)
        | none => .badCast := by
  unfold DerefExpr.mk UnaryExpr.mk? Outcome.bind
  simp only
  split
  · rename_i t ht
    exact absurd ⟨t, ht⟩ h
  · cases read x.getType <;> simp [CType.clone_eq]

theorem Expr.deref_ne_self (p : Expr) (t : CType) : Expr.deref p t ≠ p := by
  intro h
  have hs := congrArg sizeOf h
  simp only [Expr.deref.sizeOf_spec] at hs
  omega

/-! ## Lemmas on the traversal -/

open ArrowifyVisitor

theorem ArrowifyVisitor.simplifyNode_fst (e : Expr) (v w : ArrowifyVisitor) :
    (v.simplifyNode e).1 = (w.simplifyNode e).1 := by
  unfold ArrowifyVisitor.simplifyNode
  split <;> rfl

theorem ArrowifyVisitor.simplifyNode_snd (e : Expr) (v : ArrowifyVisitor) :
    (v.simplifyNode e).2.ownership = v.ownership ++ (fresh.simplifyNode e).2.ownership := by
  unfold ArrowifyVisitor.simplifyNode
  split <;> simp [fresh]

mutual
/-- The node a traversal leaves does not depend on the buffer it starts from. -/
theorem ArrowifyVisitor.accept_fst :
    ∀ (e : Expr) (v w : ArrowifyVisitor), (accept e v).1 = (accept e w).1
  | .value _ _, _, _ => rfl
  | .ref e t, v, w => by
    simp only [accept]
    rw [simplifyNode_fst _ _ (accept e w).2, ArrowifyVisitor.accept_fst e v w]
  | .deref e t, v, w => by
    simp only [accept]
    rw [simplifyNode_fst _ _ (accept e w).2, ArrowifyVisitor.accept_fst e v w]
  | .ret none t, _, _ => rfl
  | .ret (some e) t, v, w => by
    simp only [accept]
    rw [simplifyNode_fst _ _ (accept e w).2, ArrowifyVisitor.accept_fst e v w]
  | .cast none t, _, _ => rfl
  | .cast (some e) t, v, w => by
    simp only [accept]
    rw [simplifyNode_fst _ _ (accept e w).2, ArrowifyVisitor.accept_fst e v w]
  | .structElement s e i t, v, w => by
    simp only [accept]
    rw [simplifyNode_fst _ _ (accept e w).2, ArrowifyVisitor.accept_fst e v w]
  | .arrow s e i t, v, w => by
    simp only [accept]
    rw [simplifyNode_fst _ _ (accept e w).2, ArrowifyVisitor.accept_fst e v w]
  | .gep idx t, v, w => by
    simp only [accept]
    rw [ArrowifyVisitor.visitIndices_fst idx v w]
/-- The index chain a traversal leaves does not depend on the buffer either. -/
theorem ArrowifyVisitor.visitIndices_fst :
    ∀ (l : List Expr) (v w : ArrowifyVisitor), (visitIndices l v).1 = (visitIndices l w).1
  | [], _, _ => rfl
  | e :: rest, v, w => by
    simp only [visitIndices]
    rw [ArrowifyVisitor.accept_fst e v w, ArrowifyVisitor.visitIndices_fst rest _ (accept e w).2]
end

theorem ArrowifyVisitor.visitChild_snd_of_accept (e : Expr) (v : ArrowifyVisitor)
    (h : (accept e v).2.ownership = v.ownership ++ (accept e fresh).2.ownership) :
    ((accept e v).2.simplifyNode (accept e v).1).2.ownership
      = v.ownership ++ ((accept e fresh).2.simplifyNode (accept e fresh).1).2.ownership := by
  rw [simplifyNode_snd, simplifyNode_snd _ (accept e fresh).2, h, accept_fst e v fresh,
    List.append_assoc]

mutual
/-- A traversal only appends to the buffer, and what it appends does not
depend on the buffer it starts from. -/
theorem ArrowifyVisitor.accept_snd :
    ∀ (e : Expr) (v : ArrowifyVisitor),
      (accept e v).2.ownership = v.ownership ++ (accept e fresh).2.ownership
  | .value _ _, v => by simp [accept, fresh]
  | .ref e t, v => by
    simp only [accept]
    exact visitChild_snd_of_accept e v (ArrowifyVisitor.accept_snd e v)
  | .deref e t, v => by
    simp only [accept]
    exact visitChild_snd_of_accept e v (ArrowifyVisitor.accept_snd e v)
  | .ret none t, v => by simp [accept, fresh]
  | .ret (some e) t, v => by
    simp only [accept]
    exact visitChild_snd_of_accept e v (ArrowifyVisitor.accept_snd e v)
  | .cast none t, v => by simp [accept, fresh]
  | .cast (some e) t, v => by
    simp only [accept]
    exact visitChild_snd_of_accept e v (ArrowifyVisitor.accept_snd e v)
  | .structElement s e i t, v => by
    simp only [accept]
    exact visitChild_snd_of_accept e v (ArrowifyVisitor.accept_snd e v)
  | .arrow s e i t, v => by
    simp only [accept]
    exact visitChild_snd_of_accept e v (ArrowifyVisitor.accept_snd e v)
  | .gep idx t, v => by
    simp only [accept]
    exact ArrowifyVisitor.visitIndices_snd idx v
/-- The same for the loop over an index chain. -/
theorem ArrowifyVisitor.visitIndices_snd :
    ∀ (l : List Expr) (v : ArrowifyVisitor),
      (visitIndices l v).2.ownership = v.ownership ++ (visitIndices l fresh).2.ownership
  | [], v => by simp [visitIndices, fresh]
  | e :: rest, v => by
    simp only [visitIndices]
    rw [ArrowifyVisitor.visitIndices_snd rest (accept e v).2,
      ArrowifyVisitor.visitIndices_snd rest (accept e fresh).2,
      ArrowifyVisitor.accept_snd e v, List.append_assoc]
end

theorem ArrowifyVisitor.visitIndices_map (l : List Expr) (v : ArrowifyVisitor) :
    (visitIndices l v).1 = l.map fun e => arrowStep (accept e fresh).1 := by
  induction l generalizing v with
  | nil => rfl
  | cons e rest ih =>
    simp only [visitIndices, List.map_cons]
    rw [ih, accept_fst e v fresh]

/-! ## Lemmas on `arrowify` -/

theorem walkStatements_map (l : List Expr) (v : ArrowifyVisitor) :
    (walkStatements l v).1 = l.map fun e => (accept e fresh).1 := by
  induction l generalizing v with
  | nil => rfl
  | cons e rest ih =>
    simp only [walkStatements, List.map_cons]
    rw [ih, accept_fst e v fresh]

theorem walkStatements_snd (l : List Expr) (v : ArrowifyVisitor) :
    (walkStatements l v).2.ownership = v.ownership ++ (walkStatements l fresh).2.ownership := by
  induction l generalizing v with
  | nil => simp [walkStatements, fresh]
  | cons e rest ih =>
    simp only [walkStatements]
    rw [ih (accept e v).2, ih (accept e fresh).2, accept_snd e v, List.append_assoc]

theorem moveOwnership_expressions (l : List (Option Expr)) (b : Block) :
    (moveOwnership l b).2.expressions = b.expressions := by
  induction l generalizing b with
  | nil => rfl
  | cons e rest ih =>
    simp only [moveOwnership]
    rw [ih]
    rfl

theorem moveOwnership_ownership (l : List (Option Expr)) (b : Block) :
    (moveOwnership l b).2.ownership = b.ownership ++ l := by
  induction l generalizing b with
  | nil => simp [moveOwnership]
  | cons e rest ih =>
    simp only [moveOwnership]
    rw [ih]
    simp [Block.addOwnership]

theorem moveOwnership_fst (l : List (Option Expr)) (b : Block) :
    (moveOwnership l b).1 = l.map fun _ => none := by
  induction l generalizing b with
  | nil => rfl
  | cons e rest ih =>
    simp only [moveOwnership, List.map_cons]
    rw [ih]

theorem arrowifyBlock_expressions (b : Block) (v : ArrowifyVisitor) :
    (arrowifyBlock b v).1.expressions = b.expressions.map fun e => (accept e fresh).1 := by
  simp only [arrowifyBlock]
  rw [moveOwnership_expressions]
  exact walkStatements_map _ _

theorem arrowifyBlocks_expressions (bs : List Block) (v : ArrowifyVisitor) :
    (arrowifyBlocks bs v).1.map Block.expressions
      = bs.map fun b => b.expressions.map fun e => (accept e fresh).1 := by
  induction bs generalizing v with
  | nil => rfl
  | cons b rest ih =>
    simp only [arrowifyBlocks, List.map_cons]
    rw [ih, arrowifyBlock_expressions]

theorem arrowifyFuncs_expressions (p : List Func) (v : ArrowifyVisitor) :
    (arrowifyFuncs p v).1.map (fun f => f.blocks.map Block.expressions)
      = p.map fun f => f.blocks.map fun b => b.expressions.map fun e => (accept e fresh).1 := by
  induction p generalizing v with
  | nil => rfl
  | cons f rest ih =>
    simp only [arrowifyFuncs, List.map_cons]
    rw [ih, arrowifyBlocks_expressions]

theorem stmtAt_eq (p : List Func) (fi bi k : Nat) :
    stmtAt p fi bi k
      = ((p.map fun f => f.blocks.map Block.expressions)[fi]?).bind
          fun bl => (bl[bi]?).bind fun l => l[k]? := by
  simp only [stmtAt, List.getElem?_map]
  cases p[fi]? with
  | none => rfl
  | some f =>
    simp only [Option.map_some', Option.some_bind, List.getElem?_map]
    cases f.blocks[bi]? <;> rfl

/-- The pass leaves every statement slot in place: the slot holds its own
statement as the traversal leaves it. -/
theorem stmtAt_arrowify (p : List Func) (fi bi k : Nat) :
    stmtAt (arrowify p) fi bi k = (stmtAt p fi bi k).map fun e => (accept e fresh).1 := by
  rw [stmtAt_eq, stmtAt_eq, arrowify, arrowifyFuncs_expressions]
  simp only [List.getElem?_map]
  cases p[fi]? with
  | none => rfl
  | some f =>
    simp only [Option.map_some', Option.some_bind, List.getElem?_map]
    cases f.blocks[bi]? with
    | none => rfl
    | some b =>
      simp only [Option.map_some', Option.some_bind, List.getElem?_map]

/-! ## Rendering and constructors of the unary nodes -/

/-- Claim C1: for every expression `x`, the rendered text of
`DerefExpr(RefExpr(x))` is the rendered text of `x`.  This holds for the two
nodes whatever types they store, and for the nodes the two constructors build
over `x`, which the constructors do build (the operand of the `DerefExpr` has
a pointer type, so the cast in its constructor is a valid one). -/
theorem deref_ref_toString (P : Printer) (x : Expr) (t₁ t₂ : CType) :
    (Expr.deref (Expr.ref x t₁) t₂).toString P = x.toString P ∧
    ∃ r d, RefExpr.mk (some x) = Outcome.node r ∧
      (∀ read : CastRead, DerefExpr.mk read (some r) = Outcome.node d) ∧
      d.toString P = x.toString P := by
  refine ⟨by simp [Expr.toString], .ref x (.pointer x.getType),
    .deref (.ref x (.pointer x.getType)) x.getType, RefExpr.mk_some x, ?_,
    by simp [Expr.toString]⟩
  exact fun read => DerefExpr.mk_pointer read _ _ rfl

/-! ## The arrow pass -/

/-- Claim C2, as stated, fails: the block statement
`StructElement(Point, DerefExpr(p), 0)` is not `ArrowExpr(Point, p, 0)` after
the pass. -/
theorem arrowify_statement_not_arrow :
    stmtAt [{ blocks := [{ expressions := [exField], ownership := [] }] }] 0 0 0
      = some (Expr.structElement exPoint (Expr.deref exP exPointT) 0 exI32) ∧
    stmtAt (arrowify [{ blocks := [{ expressions := [exField], ownership := [] }] }]) 0 0 0
      ≠ some (ArrowExpr.mk exPoint exP 0) := by
  refine ⟨rfl, ?_⟩
  rw [stmtAt_arrowify]
  intro h
  cases h

/-- Claim C2, amended: when a block statement is
`StructElement(S, DerefExpr(ptr), i)`, after the pass the same slot still holds
that `StructElement`, with descriptor `S`, field index `i` and the `DerefExpr`
as its base; the operand of the `DerefExpr` is `ptr` as the traversal leaves it,
which is `ptr` itself when `ptr` has no operand.  The pass puts an arrow node
with `S` and `i` where the pattern is the operand of a statement, here of a
`RetExpr`. -/
theorem arrowify_statement_in_place (program : List Func) (fi bi k : Nat) (S : Struct)
    (ptr : Expr) (t₁ : CType) (i : Nat) (t₂ : CType)
    (h : stmtAt program fi bi k = some (Expr.structElement S (Expr.deref ptr t₁) i t₂)) :
    stmtAt (arrowify program) fi bi k
      = some (Expr.structElement S (Expr.deref (visitChild ptr fresh).1 t₁) i t₂) ∧
    (∀ (text : String) (t : CType), (visitChild (Expr.value text t) fresh).1 = Expr.value text t) ∧
    (∀ (t : CType) (v : ArrowifyVisitor), ∃ base tA,
      (accept (Expr.ret (some (Expr.structElement S (Expr.deref ptr t₁) i t₂)) t) v).1
        = Expr.ret (some (Expr.arrow S base i tA)) t) := by
  refine ⟨?_, fun _ _ => rfl, fun t v => ?_⟩
  · rw [stmtAt_arrowify, h]
    simp [accept, visitChild, simplifyNode]
  · refine ⟨Expr.deref (visitChild ptr v).1 t₁, S.fieldType i, ?_⟩
    simp [accept, visitChild, simplifyNode, ArrowExpr.mk]

/-- Witness of the amended claim C2 on a block whose only statement is
`StructElement(Point, DerefExpr(p), 0)`. -/
theorem arrowify_statement_in_place_witness :
    stmtAt [{ blocks := [{ expressions := [exField], ownership := [] }] }] 0 0 0
      = some (Expr.structElement exPoint (Expr.deref exP exPointT) 0 exI32) ∧
    stmtAt (arrowify [{ blocks := [{ expressions := [exField], ownership := [] }] }]) 0 0 0
      = some (Expr.structElement exPoint (Expr.deref exP exPointT) 0 exI32) :=
  ⟨rfl, (arrowify_statement_in_place
    [{ blocks := [{ expressions := [exField], ownership := [] }] }] 0 0 0
    exPoint exP exPointT 0 exI32 rfl).1⟩

/-- Claim C4, what the code does: on `StructElement(S, DerefExpr(p), i)` the
arrow built by `ArrowifyVisitor::simplify` has the `DerefExpr` node as its
base, the one built by `ArrowifyVisitor::visit(GepExpr&)` has `p`, and the two
arrow nodes differ. -/
theorem simplify_visit_base_diverge (S : Struct) (p : Expr) (t₁ : CType) (i : Nat) (t₂ : CType)
    (v : ArrowifyVisitor) :
    (v.simplify (some (Expr.structElement S (Expr.deref p t₁) i t₂))).1
      = some (ArrowExpr.mk S (Expr.deref p t₁) i) ∧
    arrowStep (Expr.structElement S (Expr.deref p t₁) i t₂) = ArrowExpr.mk S p i ∧
    ArrowExpr.mk S (Expr.deref p t₁) i ≠ ArrowExpr.mk S p i := by
  refine ⟨rfl, rfl, ?_⟩
  intro h
  simp only [ArrowExpr.mk, Expr.arrow.injEq] at h
  exact Expr.deref_ne_self p t₁ h.2.1

/-- Claim C5, what the code does: with two blocks, the first holding the
statement `RetExpr(StructElement(Point, DerefExpr(p), 0))` and the second
empty, the second block receives a null entry, the one buffered while the
first block was walked; after the first block the buffer still has that
entry.  In general the buffer after a block is as long as before it plus the
nodes buffered in the block. -/
theorem arrowify_buffer_not_cleared :
    arrowify [{ blocks := [{ expressions := [Expr.ret (some exField) exI32], ownership := [] },
                           { expressions := [], ownership := [] }] }]
      = [{ blocks :=
            [{ expressions :=
                 [Expr.ret (some (ArrowExpr.mk exPoint (Expr.deref exP exPointT) 0)) exI32],
               ownership := [some (ArrowExpr.mk exPoint (Expr.deref exP exPointT) 0)] },
             { expressions := [], ownership := [none] }] }] ∧
    (arrowifyBlock { expressions := [Expr.ret (some exField) exI32], ownership := [] }
        fresh).2.ownership = [none] ∧
    ∀ (b : Block) (v : ArrowifyVisitor),
      (arrowifyBlock b v).2.ownership.length
        = v.ownership.length + (walkStatements b.expressions fresh).2.ownership.length := by
  refine ⟨rfl, rfl, fun b v => ?_⟩
  simp only [arrowifyBlock]
  rw [moveOwnership_fst, List.length_map, walkStatements_snd, List.length_append]

/-! ## Constructors -/

/-- Claim C6, as stated, fails: over the operand `x` of primitive type the
`DerefExpr` constructor does not signal `TypeMismatch`, whatever the unchecked
read finds; it builds a node when the read finds a type object and has no
defined result when it finds none. -/
theorem DerefExpr_mk_primitive_no_TypeMismatch :
    (Expr.value "x" (CType.primitive 32 true)).getType = CType.primitive 32 true ∧
    (∀ read : CastRead, DerefExpr.mk read (some (Expr.value "x" (CType.primitive 32 true)))
      ≠ Outcome.failure Failure.TypeMismatch) ∧
    DerefExpr.mk (fun _ => none) (some (Expr.value "x" (CType.primitive 32 true)))
      = Outcome.badCast ∧
    DerefExpr.mk (fun _ => some (CType.primitive 8 false))
        (some (Expr.value "x" (CType.primitive 32 true)))
      = Outcome.node (Expr.deref (Expr.value "x" (CType.primitive 32 true))
          (CType.primitive 8 false)) := by
  refine ⟨rfl, fun read h => ?_, rfl, rfl⟩
  have hx : DerefExpr.mk read (some (Expr.value "x" (CType.primitive 32 true)))
      = match read (CType.primitive 32 true) with
        | some t => Outcome.node (Expr.deref (Expr.value "x" (CType.primitive 32 true)) t)
        | none => Outcome.badCast :=
    DerefExpr.mk_not_pointer read _ (by rintro ⟨T, hT⟩; cases hT)
  rw [hx] at h
  cases hr : read (CType.primitive 32 true) <;> rw [hr] at h <;> cases h

/-- Claim C6, amended: the `DerefExpr` constructor never signals a failure,
over any operand and whatever the unchecked read finds: it has no type test.
Over an operand of type `Pointer(T)` it builds a node.  Over any other operand
the outcome is the one of the unchecked read: a node when the read finds a
type object, so that a read that always finds one gives a node over every
operand, and no defined result when it finds none. -/
theorem DerefExpr_mk_outcome (read : CastRead) (x : Expr) :
    (∀ k, DerefExpr.mk read (some x) ≠ Outcome.failure k) ∧
    ((¬ ∃ T, x.getType = CType.pointer T) ∨ ∃ n, DerefExpr.mk read (some x) = Outcome.node n) ∧
    ((∃ T, x.getType = CType.pointer T) ∨
      DerefExpr.mk read (some x)
        = match read x.getType with
          | some t => Outcome.node (Expr.deref x t)
          | none => Outcome.badCast) ∧
    (∀ t : CType, ∃ n, DerefExpr.mk (fun _ => some t) (some x) = Outcome.node n) := by
  by_cases h : ∃ T, x.getType = CType.pointer T
  · obtain ⟨T, hT⟩ := h
    refine ⟨?_, Or.inr ⟨_, DerefExpr.mk_pointer read x T hT⟩, Or.inl ⟨T, hT⟩, fun t => ?_⟩
    · rw [DerefExpr.mk_pointer read x T hT]
      intro k hk
      cases hk
    · exact ⟨_, DerefExpr.mk_pointer _ x T hT⟩
  · refine ⟨?_, Or.inl h, Or.inr (DerefExpr.mk_not_pointer read x h), fun t => ?_⟩
    · rw [DerefExpr.mk_not_pointer read x h]
      intro k hk
      cases hr : read x.getType <;> rw [hr] at hk <;> cases hk
    · exact ⟨_, DerefExpr.mk_not_pointer _ x h⟩

/-- Claim C7, what the code does: the constructor `RetExpr()` passes a null
operand to the `UnaryExpr` constructor, which calls `getType` through it, so
no node is built; so does `RetExpr(nullptr)`.  A `RetExpr` node with a null
operand, if there were one, would render as `return;`. -/
theorem RetExpr_mkVoid_nullDeref :
    RetExpr.mkVoid = Outcome.nullDeref ∧ RetExpr.mk none = Outcome.nullDeref ∧
    ∀ (P : Printer) (t : CType), (Expr.ret none t).toString P = "return;" := by
  refine ⟨rfl, rfl, fun P t => ?_⟩
  simp [Expr.toString]

/-- Claim C8: for every expression `x`, the constructor `RefExpr(x)` builds a
node whose type is `Pointer(T)` with `T` the type of `x`. -/
theorem RefExpr_mk_type (x : Expr) :
    ∃ r, RefExpr.mk (some x) = Outcome.node r ∧ r.getType = CType.pointer x.getType ∧
      r = Expr.ref x (CType.pointer x.getType) :=
  ⟨_, RefExpr.mk_some x, rfl, rfl⟩

/-- Claim C9: for every expression `x` whose type is `Pointer(T)`, the
constructor `DerefExpr(x)` builds a node whose type is `T`. -/
theorem DerefExpr_mk_type (x : Expr) (T : CType) (h : x.getType = CType.pointer T) :
    ∃ d, (∀ read : CastRead, DerefExpr.mk read (some x) = Outcome.node d) ∧
      d.getType = T ∧ d = Expr.deref x T :=
  ⟨_, fun read => DerefExpr.mk_pointer read x T h, rfl, rfl⟩

/-- Witness of claim C9 on a variable `p` of type pointer to a 32-bit integer. -/
theorem DerefExpr_mk_type_witness :
    (Expr.value "p" (CType.pointer (CType.primitive 32 true))).getType
        = CType.pointer (CType.primitive 32 true) ∧
    ∃ d, (∀ read : CastRead,
        DerefExpr.mk read (some (Expr.value "p" (CType.pointer (CType.primitive 32 true))))
          = Outcome.node d) ∧ d.getType = CType.primitive 32 true ∧
        d = Expr.deref (Expr.value "p" (CType.pointer (CType.primitive 32 true)))
          (CType.primitive 32 true) :=
  ⟨rfl, DerefExpr_mk_type (Expr.value "p" (CType.pointer (CType.primitive 32 true)))
    (CType.primitive 32 true) rfl⟩

/-- Claim C10: for every operand `x` and target type `t`, the constructor
`CastExpr(x, t)` builds a node whose type is `t`, whatever the type of `x`:
the base constructor first sets the type of `x`, which is then replaced. -/
theorem CastExpr_mk_type (x : Expr) (t : CType) :
    UnaryExpr.mk? (some x) = Outcome.node { expr := some x, type := x.getType } ∧
    ∃ c, CastExpr.mk (some x) t = Outcome.node c ∧ c.getType = t ∧
      c = Expr.cast (some x) t :=
  ⟨by simp [UnaryExpr.mk?, CType.clone_eq], _, rfl, rfl, rfl⟩

/-! ## Lemmas on rendering -/

theorem beginsWith_append_iff (a b s : String) :
    beginsWith (a ++ b) (a ++ s) ↔ beginsWith b s := by
  unfold beginsWith
  rw [String.data_append, String.data_append]
  exact List.prefix_append_right_inj a.data

theorem beginsWith_ref_append_close (s : String) :
    beginsWith "&(" (s ++ ")") ↔ beginsWith "&(" s := by
  unfold beginsWith
  rw [String.data_append]
  have h1 : "&(".data = ['&', '('] := rfl
  have h2 : ")".data = [')'] := rfl
  rw [h1, h2]
  rcases s.data with _ | ⟨c, _ | ⟨d, rest⟩⟩
  · simp [List.cons_prefix_cons]
  · simp [List.cons_prefix_cons]
  · simp [List.cons_prefix_cons]

theorem Expr.toString_deref_of_not_ref (P : Printer) (y : Expr) (t : CType)
    (h : y.isRef = false) :
    (Expr.deref y t).toString P = "*(" ++ y.toString P ++ ")" := by
  cases y <;> simp_all [Expr.toString, Expr.isRef]

/-! ## Types and rendering of the unary nodes, continued -/

/-! ## Lemmas on type objects -/

theorem TypeStore.lt_of_read {s : TypeStore} {a : Nat} {t : CType} (h : s.read a = some t) :
    a < s.cells.length := by
  unfold TypeStore.read at h
  by_contra hlt
  rw [List.getElem?_eq_none (Nat.le_of_not_lt hlt)] at h
  simp at h

theorem TypeStore.read_alloc_new (s : TypeStore) (t : CType) :
    (s.alloc t).2.read (s.alloc t).1 = some t := by
  simp [TypeStore.read, TypeStore.alloc]

theorem TypeStore.read_alloc_old (s : TypeStore) (t : CType) (a : Nat) (h : a < s.cells.length) :
    (s.alloc t).2.read a = s.read a := by
  simp [TypeStore.read, TypeStore.alloc, List.getElem?_append_left h]

theorem TypeStore.read_destroy_ne (s : TypeStore) (a b : Nat) (h : a ≠ b) :
    (s.destroy a).read b = s.read b := by
  simp [TypeStore.read, TypeStore.destroy, List.getElem?_set_ne h]

theorem TypeStore.read_destroy_self (s : TypeStore) (a : Nat) :
    (s.destroy a).read a = none := by
  unfold TypeStore.read TypeStore.destroy
  by_cases h : a < s.cells.length
  · simp [List.getElem?_set_self, h]
  · have hlen : (s.cells.set a none).length ≤ a := by
      rw [List.length_set]
      exact Nat.le_of_not_lt h
    rw [List.getElem?_eq_none hlen]
    rfl

/-- Claim C11: for every operand `x` whose type object lies at address `a`,
the constructor `RetExpr(x)`, which does not override the type set by the
`UnaryExpr` constructor, builds a node whose type is structurally equal to the
type of `x`.  The node owns a type object of its own, at an address other than
`a`; replacing the type of the node afterwards destroys that object, gives the
node the new one, and leaves the type object of `x` as it was. -/
theorem RetExpr_mk_type (x : Expr) (s : TypeStore) (a : Nat) (h : s.read a = some x.getType) :
    RetExpr.mk (some x) = Outcome.node (Expr.ret (some x) x.getType.clone) ∧
    (Expr.ret (some x) x.getType.clone).getType = x.getType ∧
    ∃ p s₁, RetExpr.construct (some { type := some a }) s = Run.done ({ type := some p }, s₁) ∧
      p ≠ a ∧ s₁.read p = some x.getType ∧ s₁.read a = some x.getType ∧
      ∀ t : CType,
        (ExprBase.setType { type := some p } (s₁.alloc t).1 (s₁.alloc t).2).1.type
          = some (s₁.alloc t).1 ∧
        (ExprBase.setType { type := some p } (s₁.alloc t).1 (s₁.alloc t).2).2.read (s₁.alloc t).1
          = some t ∧
        (ExprBase.setType { type := some p } (s₁.alloc t).1 (s₁.alloc t).2).2.read a
          = some x.getType ∧
        (ExprBase.setType { type := some p } (s₁.alloc t).1 (s₁.alloc t).2).2.read p = none := by
  have hlt := TypeStore.lt_of_read h
  have hne : s.cells.length ≠ a := Nat.ne_of_gt hlt
  have hrun : RetExpr.construct (some { type := some a }) s
      = Run.done ({ type := some s.cells.length }, (s.alloc x.getType.clone).2) := by
    simp [RetExpr.construct, UnaryExpr.construct, TypeStore.clone, h, Run.bind,
      ExprBase.setType, TypeStore.alloc]
  have hp : (s.alloc x.getType.clone).2.read s.cells.length = some x.getType := by
    have := TypeStore.read_alloc_new s x.getType.clone
    rw [CType.clone_eq] at this ⊢
    exact this
  have ha : (s.alloc x.getType.clone).2.read a = some x.getType := by
    rw [TypeStore.read_alloc_old s _ a hlt, h]
  refine ⟨rfl, by simp [Expr.getType, CType.clone_eq], s.cells.length,
    (s.alloc x.getType.clone).2, hrun, hne, hp, ha, fun t => ?_⟩
  have hlen : (s.alloc x.getType.clone).2.cells.length = s.cells.length + 1 := by
    simp [TypeStore.alloc]
  have hnew : ((s.alloc x.getType.clone).2.alloc t).1 = s.cells.length + 1 := by
    simp [TypeStore.alloc]
  refine ⟨rfl, ?_, ?_, ?_⟩
  · show (((s.alloc x.getType.clone).2.alloc t).2.destroy s.cells.length).read
      ((s.alloc x.getType.clone).2.alloc t).1 = some t
    rw [TypeStore.read_destroy_ne _ _ _ (by rw [hnew]; omega), TypeStore.read_alloc_new]
  · show (((s.alloc x.getType.clone).2.alloc t).2.destroy s.cells.length).read a = some x.getType
    rw [TypeStore.read_destroy_ne _ _ _ hne, TypeStore.read_alloc_old _ _ _ (by rw [hlen]; omega),
      ha]
  · exact TypeStore.read_destroy_self _ _

/-- Witness of claim C11 on the variable `x` of integer type, whose type
object is the only one of the store. -/
theorem RetExpr_mk_type_witness :
    TypeStore.read { cells := [some exI32] } 0 = some exX.getType ∧
    ∃ p s₁, RetExpr.construct (some { type := some 0 }) { cells := [some exI32] }
        = Run.done ({ type := some p }, s₁) ∧
      p ≠ 0 ∧ s₁.read p = some exX.getType ∧ s₁.read 0 = some exX.getType :=
  ⟨rfl, by
    obtain ⟨_, _, p, s₁, h₁, h₂, h₃, h₄, _⟩ :=
      RetExpr_mk_type exX { cells := [some exI32] } 0 rfl
    exact ⟨p, s₁, h₁, h₂, h₃, h₄⟩⟩

/-- Claim C15: for every expression `x`, the constructors build
`DerefExpr(RefExpr(x))` and its type is the type of `x`. -/
theorem deref_ref_type (x : Expr) :
    ∃ r d, RefExpr.mk (some x) = Outcome.node r ∧
      (∀ read : CastRead, DerefExpr.mk read (some r) = Outcome.node d) ∧
      d.getType = x.getType ∧ d = Expr.deref (Expr.ref x (CType.pointer x.getType)) x.getType :=
  ⟨_, _, RefExpr.mk_some x, fun read => DerefExpr.mk_pointer read _ _ rfl, rfl, rfl⟩

/-- Claim C16, as stated, fails: the well-typed tree
`DerefExpr(DerefExpr(RefExpr(RefExpr(x))))`, built by the constructors over
the variable `x`, renders as `*(&(x))`. -/
theorem nested_deref_ref_text :
    RefExpr.mk (some exX) = Outcome.node exRef1 ∧
    RefExpr.mk (some exRef1) = Outcome.node exRef2 ∧
    (∀ read : CastRead, DerefExpr.mk read (some exRef2) = Outcome.node exDeref1) ∧
    (∀ read : CastRead, DerefExpr.mk read (some exDeref1) = Outcome.node exDeref2) ∧
    exDeref2 = Expr.deref (Expr.deref (Expr.ref (Expr.ref exX (CType.pointer exI32))
      (CType.pointer (CType.pointer exI32))) (CType.pointer exI32)) exI32 ∧
    exDeref2.toString exPrinter = "*(&(x))" := by
  refine ⟨rfl, rfl, fun _ => rfl, fun _ => rfl, rfl, ?_⟩
  decide

/-- Claim C16, amended: a `DerefExpr` whose operand is a `RefExpr` renders as
the text of the operand of that `RefExpr`, so nothing is printed for the pair.
The test looks at the operand node only: a `DerefExpr` over any `y` that is
not a `RefExpr` renders as `*(` + text of `y` + `)`, which begins with `*(&(`
exactly when the text of `y` begins with `&(`; so
`DerefExpr(DerefExpr(RefExpr(RefExpr(x))))` renders as `*(&(` + text of `x` +
`))`. -/
theorem deref_text_form (P : Printer) (y : Expr) (t : CType) (h : y.isRef = false) :
    (beginsWith "*(&(" ((Expr.deref y t).toString P) ↔ beginsWith "&(" (y.toString P)) ∧
    (∀ (x : Expr) (t₁ t₂ : CType),
      (Expr.deref (Expr.ref x t₁) t₂).toString P = x.toString P) ∧
    (∀ (x : Expr) (t₁ t₂ t₃ t₄ : CType),
      (Expr.deref (Expr.deref (Expr.ref (Expr.ref x t₁) t₂) t₃) t₄).toString P
        = "*(" ++ ("&(" ++ x.toString P ++ ")") ++ ")") := by
  refine ⟨?_, fun x t₁ t₂ => by simp [Expr.toString], fun x t₁ t₂ t₃ t₄ => by simp [Expr.toString]⟩
  rw [Expr.toString_deref_of_not_ref P y t h, String.append_assoc]
  exact (beginsWith_append_iff "*(" "&(" (y.toString P ++ ")")).trans
    (beginsWith_ref_append_close (y.toString P))

theorem Expr.isFieldOfDeref_iff (e : Expr) :
    e.isFieldOfDeref = true ↔
      ∃ S d t₁ i t₂, e = Expr.structElement S (Expr.deref d t₁) i t₂ := by
  constructor
  · intro h
    cases e with
    | structElement S b i t₂ =>
      cases b with
      | deref d t₁ => exact ⟨S, d, t₁, i, t₂, rfl⟩
      | _ => simp [Expr.isFieldOfDeref] at h
    | _ => simp [Expr.isFieldOfDeref] at h
  · rintro ⟨S, d, t₁, i, t₂, rfl⟩
    rfl

theorem ArrowifyVisitor.simplifyNode_of_not_match (e : Expr) (v : ArrowifyVisitor)
    (h : e.isFieldOfDeref = false) : v.simplifyNode e = (e, v) := by
  cases e with
  | structElement S b i t₂ =>
    cases b with
    | deref d t₁ => simp [Expr.isFieldOfDeref] at h
    | _ => rfl
  | _ => rfl

/-- Claim C14: `ArrowifyVisitor::simplify` returns a node different from its
input exactly when the input is a `StructElement` whose `expr` is a
`DerefExpr`.  In that case the result is a new arrow node and the buffer is
the old buffer followed by that one node; for every other input, the null
input included, the input is returned and the visitor is unchanged. -/
theorem simplify_result (expr : Option Expr) (v : ArrowifyVisitor) :
    ((v.simplify expr).1 ≠ expr ↔
      ∃ S d t₁ i t₂, expr = some (Expr.structElement S (Expr.deref d t₁) i t₂)) ∧
    ((∃ S d t₁ i t₂, expr = some (Expr.structElement S (Expr.deref d t₁) i t₂) ∧
        v.simplify expr = (some (ArrowExpr.mk S (Expr.deref d t₁) i),
          { ownership := v.ownership ++ [some (ArrowExpr.mk S (Expr.deref d t₁) i)] })) ∨
      ((¬ ∃ S d t₁ i t₂, expr = some (Expr.structElement S (Expr.deref d t₁) i t₂)) ∧
        v.simplify expr = (expr, v))) ∧
    v.simplify none = (none, v) := by
  refine ⟨?_, ?_, rfl⟩
  · cases expr with
    | none => simp [ArrowifyVisitor.simplify]
    | some e =>
      by_cases hm : e.isFieldOfDeref = true
      · obtain ⟨S, d, t₁, i, t₂, rfl⟩ := (Expr.isFieldOfDeref_iff e).1 hm
        simp [ArrowifyVisitor.simplify, ArrowifyVisitor.simplifyNode, ArrowExpr.mk]
      · have hf : e.isFieldOfDeref = false := by simpa using hm
        have hn : ¬ ∃ S d t₁ i t₂, e = Expr.structElement S (Expr.deref d t₁) i t₂ :=
          fun hex => hm ((Expr.isFieldOfDeref_iff e).2 hex)
        simp [ArrowifyVisitor.simplify, ArrowifyVisitor.simplifyNode_of_not_match e v hf, hn]
  · cases expr with
    | none => exact Or.inr ⟨by simp, rfl⟩
    | some e =>
      by_cases hm : e.isFieldOfDeref = true
      · obtain ⟨S, d, t₁, i, t₂, rfl⟩ := (Expr.isFieldOfDeref_iff e).1 hm
        exact Or.inl ⟨S, d, t₁, i, t₂, rfl, rfl⟩
      · have hf : e.isFieldOfDeref = false := by simpa using hm
        refine Or.inr ⟨?_, ?_⟩
        · rintro ⟨S, d, t₁, i, t₂, he⟩
          exact hm ((Expr.isFieldOfDeref_iff e).2 ⟨S, d, t₁, i, t₂, Option.some.inj he⟩)
        · simp [ArrowifyVisitor.simplify, ArrowifyVisitor.simplifyNode_of_not_match e v hf]

/-- Claim C18: for every expression `x`, `RetExpr(x)` renders as `return ` +
text of `x` + `;` and `RefExpr(x)` as `&(` + text of `x` + `)`; for every `y`
that is not a `RefExpr`, `DerefExpr(y)` renders as `*(` + text of `y` + `)`. -/
theorem unary_toString (P : Printer) (x y : Expr) (t : CType) (h : y.isRef = false) :
    (Expr.ret (some x) t).toString P = "return " ++ x.toString P ++ ";" ∧
    (Expr.ref x t).toString P = "&(" ++ x.toString P ++ ")" ∧
    (Expr.deref y t).toString P = "*(" ++ y.toString P ++ ")" := by
  refine ⟨?_, by simp [Expr.toString], Expr.toString_deref_of_not_ref P y t h⟩
  simp only [Expr.toString]
  rw [← String.append_assoc "return" " " (x.toString P)]
  rfl

/-- Witness of claim C18 on the variables `x` and `p`, with a `RetExpr`, a
`RefExpr` and a `DerefExpr` of integer type. -/
theorem unary_toString_witness :
    exP.isRef = false ∧
    (Expr.ret (some exX) exI32).toString exPrinter = "return " ++ exX.toString exPrinter ++ ";" ∧
    (Expr.ref exX exI32).toString exPrinter = "&(" ++ exX.toString exPrinter ++ ")" ∧
    (Expr.deref exP exI32).toString exPrinter = "*(" ++ exP.toString exPrinter ++ ")" :=
  ⟨rfl, unary_toString exPrinter exX exP exI32 rfl⟩

/-- Witness of the amended claim C16 on `y = DerefExpr(RefExpr(RefExpr(x)))`,
which is not a `RefExpr` and whose text is `&(x)`. -/
theorem deref_text_form_witness :
    exDeref1.isRef = false ∧
    (beginsWith "*(&(" ((Expr.deref exDeref1 exI32).toString exPrinter) ↔
      beginsWith "&(" (exDeref1.toString exPrinter)) :=
  ⟨rfl, (deref_text_form exPrinter exDeref1 exI32 rfl).1⟩

/-! ## Lemmas on the traversal, continued -/

theorem ArrowifyVisitor.arrowStep_of_not_match (e : Expr) (h : e.isFieldOfDeref = false) :
    arrowStep e = e := by
  cases e with
  | structElement S b i t₂ =>
    cases b with
    | deref d t₁ => simp [Expr.isFieldOfDeref] at h
    | _ => rfl
  | _ => rfl

theorem ArrowifyVisitor.visitChild_fst (e : Expr) (v : ArrowifyVisitor) :
    (visitChild e v).1 = (fresh.simplifyNode (accept e fresh).1).1 := by
  unfold visitChild
  rw [simplifyNode_fst _ _ fresh, accept_fst e v fresh]

theorem ArrowifyVisitor.accept_ref_fst (e : Expr) (t : CType) (v : ArrowifyVisitor) :
    (accept (Expr.ref e t) v).1 = Expr.ref (visitChild e fresh).1 t := by
  show Expr.ref (visitChild e v).1 t = _
  rw [visitChild_fst e v, visitChild_fst e fresh]

theorem ArrowifyVisitor.accept_deref_fst (e : Expr) (t : CType) (v : ArrowifyVisitor) :
    (accept (Expr.deref e t) v).1 = Expr.deref (visitChild e fresh).1 t := by
  show Expr.deref (visitChild e v).1 t = _
  rw [visitChild_fst e v, visitChild_fst e fresh]

theorem ArrowifyVisitor.accept_ret_fst (e : Expr) (t : CType) (v : ArrowifyVisitor) :
    (accept (Expr.ret (some e) t) v).1 = Expr.ret (some (visitChild e fresh).1) t := by
  show Expr.ret (some (visitChild e v).1) t = _
  rw [visitChild_fst e v, visitChild_fst e fresh]

theorem ArrowifyVisitor.accept_cast_fst (e : Expr) (t : CType) (v : ArrowifyVisitor) :
    (accept (Expr.cast (some e) t) v).1 = Expr.cast (some (visitChild e fresh).1) t := by
  show Expr.cast (some (visitChild e v).1) t = _
  rw [visitChild_fst e v, visitChild_fst e fresh]

theorem ArrowifyVisitor.accept_structElement_fst (S : Struct) (e : Expr) (i : Nat) (t : CType)
    (v : ArrowifyVisitor) :
    (accept (Expr.structElement S e i t) v).1
      = Expr.structElement S (visitChild e fresh).1 i t := by
  show Expr.structElement S (visitChild e v).1 i t = _
  rw [visitChild_fst e v, visitChild_fst e fresh]

theorem ArrowifyVisitor.accept_arrow_fst (S : Struct) (e : Expr) (i : Nat) (t : CType)
    (v : ArrowifyVisitor) :
    (accept (Expr.arrow S e i t) v).1 = Expr.arrow S (visitChild e fresh).1 i t := by
  show Expr.arrow S (visitChild e v).1 i t = _
  rw [visitChild_fst e v, visitChild_fst e fresh]

theorem ArrowifyVisitor.accept_gep_fst (l : List Expr) (t : CType) (v : ArrowifyVisitor) :
    (accept (Expr.gep l t) v).1 = Expr.gep (l.map fun e => arrowStep (accept e fresh).1) t := by
  show Expr.gep (visitIndices l v).1 t = _
  rw [visitIndices_map]

/-- A traversal keeps the node and its own members; only child slots change. -/
theorem ArrowifyVisitor.accept_sameNode (e : Expr) (v : ArrowifyVisitor) :
    Expr.sameNode e (accept e v).1 := by
  cases e with
  | value text t => exact ⟨rfl, rfl⟩
  | ref e t => rw [accept_ref_fst]; exact rfl
  | deref e t => rw [accept_deref_fst]; exact rfl
  | ret o t =>
    cases o with
    | none => exact ⟨rfl, rfl⟩
    | some e => rw [accept_ret_fst]; exact ⟨rfl, rfl⟩
  | cast o t =>
    cases o with
    | none => exact ⟨rfl, rfl⟩
    | some e => rw [accept_cast_fst]; exact ⟨rfl, rfl⟩
  | structElement S e i t => rw [accept_structElement_fst]; exact ⟨rfl, rfl, rfl⟩
  | arrow S e i t => rw [accept_arrow_fst]; exact ⟨rfl, rfl, rfl⟩
  | gep l t => rw [accept_gep_fst]; exact ⟨(List.length_map _ _).symm, rfl⟩

theorem ArrowifyVisitor.visitChild_deref_fst (q : Expr) (t : CType) (v : ArrowifyVisitor) :
    (visitChild (Expr.deref q t) v).1 = Expr.deref (visitChild q fresh).1 t := by
  rw [visitChild_fst, accept_deref_fst]
  rfl

/-- When traversing the traversed node changes nothing, neither does visiting
the visited child slot again. -/
theorem ArrowifyVisitor.visitChild_idem_of (e : Expr)
    (h : (accept (accept e fresh).1 fresh).1 = (accept e fresh).1) :
    (visitChild (visitChild e fresh).1 fresh).1 = (visitChild e fresh).1 := by
  by_cases hm : (accept e fresh).1.isFieldOfDeref = true
  · obtain ⟨S, q, t₁, i, t₂, hq⟩ := (Expr.isFieldOfDeref_iff _).1 hm
    rw [hq, accept_structElement_fst, visitChild_deref_fst] at h
    have hq' : (visitChild q fresh).1 = q := by
      simp only [Expr.structElement.injEq, Expr.deref.injEq] at h
      exact h.2.1.1
    have hv : (visitChild e fresh).1 = ArrowExpr.mk S (Expr.deref q t₁) i := by
      rw [visitChild_fst, hq]
      rfl
    rw [hv, visitChild_fst]
    unfold ArrowExpr.mk
    rw [accept_arrow_fst, visitChild_deref_fst, hq']
    rfl
  · have hf : (accept e fresh).1.isFieldOfDeref = false := by simpa using hm
    have hv : (visitChild e fresh).1 = (accept e fresh).1 := by
      rw [visitChild_fst, simplifyNode_of_not_match _ _ hf]
    rw [hv, visitChild_fst, h, simplifyNode_of_not_match _ _ hf]

/-- When traversing the traversed index step changes nothing, neither does
a second visit of the index slot. -/
theorem ArrowifyVisitor.arrowStep_idem_of (e : Expr)
    (h : (accept (accept e fresh).1 fresh).1 = (accept e fresh).1) :
    arrowStep (accept (arrowStep (accept e fresh).1) fresh).1 = arrowStep (accept e fresh).1 := by
  by_cases hm : (accept e fresh).1.isFieldOfDeref = true
  · obtain ⟨S, q, t₁, i, t₂, hq⟩ := (Expr.isFieldOfDeref_iff _).1 hm
    rw [hq, accept_structElement_fst, visitChild_deref_fst] at h
    have hq' : (visitChild q fresh).1 = q := by
      simp only [Expr.structElement.injEq, Expr.deref.injEq] at h
      exact h.2.1.1
    rw [hq]
    show arrowStep (accept (ArrowExpr.mk S q i) fresh).1 = ArrowExpr.mk S q i
    unfold ArrowExpr.mk
    rw [accept_arrow_fst, hq']
    rfl
  · have hf : (accept e fresh).1.isFieldOfDeref = false := by simpa using hm
    rw [arrowStep_of_not_match _ hf, h, arrowStep_of_not_match _ hf]

mutual
/-- Traversing a node that has been traversed changes nothing. -/
theorem ArrowifyVisitor.accept_idem :
    ∀ e : Expr, (accept (accept e fresh).1 fresh).1 = (accept e fresh).1
  | .value _ _ => rfl
  | .ref e t => by
    rw [accept_ref_fst, accept_ref_fst, visitChild_idem_of e (ArrowifyVisitor.accept_idem e)]
  | .deref e t => by
    rw [accept_deref_fst, accept_deref_fst, visitChild_idem_of e (ArrowifyVisitor.accept_idem e)]
  | .ret none t => rfl
  | .ret (some e) t => by
    rw [accept_ret_fst, accept_ret_fst, visitChild_idem_of e (ArrowifyVisitor.accept_idem e)]
  | .cast none t => rfl
  | .cast (some e) t => by
    rw [accept_cast_fst, accept_cast_fst, visitChild_idem_of e (ArrowifyVisitor.accept_idem e)]
  | .structElement S e i t => by
    rw [accept_structElement_fst, accept_structElement_fst,
      visitChild_idem_of e (ArrowifyVisitor.accept_idem e)]
  | .arrow S e i t => by
    rw [accept_arrow_fst, accept_arrow_fst, visitChild_idem_of e (ArrowifyVisitor.accept_idem e)]
  | .gep l t => by
    rw [accept_gep_fst, accept_gep_fst, ArrowifyVisitor.indices_idem l]
/-- Visiting the index slots a second time changes nothing. -/
theorem ArrowifyVisitor.indices_idem :
    ∀ l : List Expr,
      ((l.map fun e => arrowStep (accept e fresh).1).map fun e => arrowStep (accept e fresh).1)
        = l.map fun e => arrowStep (accept e fresh).1
  | [] => rfl
  | e :: rest => by
    simp only [List.map_cons]
    rw [arrowStep_idem_of e (ArrowifyVisitor.accept_idem e), ArrowifyVisitor.indices_idem rest]
end

theorem ArrowifyVisitor.visitIndices_ownership (l : List Expr) (v : ArrowifyVisitor) :
    (visitIndices l v).2.ownership
      = v.ownership ++ l.flatMap fun e => (accept e fresh).2.ownership := by
  induction l generalizing v with
  | nil => simp [visitIndices]
  | cons e rest ih =>
    simp only [visitIndices, List.flatMap_cons]
    rw [ih, accept_snd e v, List.append_assoc]

theorem ArrowifyVisitor.arrowStep_not_match (e : Expr) :
    (arrowStep e).isFieldOfDeref = false := by
  cases e with
  | structElement S b i t₂ =>
    cases b <;> rfl
  | _ => rfl

theorem Expr.isFieldOfDeref_structElement (S : Struct) (b : Expr) (i : Nat) (t : CType) :
    (Expr.structElement S b i t).isFieldOfDeref = b.isDeref := by
  cases b <;> rfl

theorem ArrowifyVisitor.simplifyNode_isDeref (x : Expr) (v : ArrowifyVisitor) :
    (v.simplifyNode x).1.isDeref = x.isDeref := by
  cases x with
  | structElement S b i t => cases b <;> rfl
  | _ => rfl

theorem ArrowifyVisitor.accept_isDeref (e : Expr) (v : ArrowifyVisitor) :
    (accept e v).1.isDeref = e.isDeref := by
  cases e with
  | value text t => rfl
  | ref e t => rfl
  | deref e t => rfl
  | ret o t => cases o <;> rfl
  | cast o t => cases o <;> rfl
  | structElement S e i t => rfl
  | arrow S e i t => rfl
  | gep l t => rfl

theorem ArrowifyVisitor.visitChild_isDeref (e : Expr) (v : ArrowifyVisitor) :
    (visitChild e v).1.isDeref = e.isDeref := by
  unfold visitChild
  rw [simplifyNode_isDeref, accept_isDeref]

/-- A traversal does not change whether a node matches. -/
theorem ArrowifyVisitor.accept_isFieldOfDeref (e : Expr) (v : ArrowifyVisitor) :
    (accept e v).1.isFieldOfDeref = e.isFieldOfDeref := by
  cases e with
  | value text t => rfl
  | ref e t => rfl
  | deref e t => rfl
  | ret o t => cases o <;> rfl
  | cast o t => cases o <;> rfl
  | structElement S e i t =>
    rw [accept_structElement_fst, Expr.isFieldOfDeref_structElement,
      Expr.isFieldOfDeref_structElement, visitChild_isDeref]
  | arrow S e i t => rfl
  | gep l t => rfl

/-! ## The arrow pass, continued -/

/-- Claim C12, as stated, fails: on the index chain whose only step is
`StructElement(Point, DerefExpr(p), 0)`, `ArrowifyVisitor::visit(GepExpr&)`
constructs the arrow node and stores it in the index slot, and the ownership
buffer is still empty: the new node is not registered. -/
theorem visitGep_arrow_not_registered :
    exField.isFieldOfDeref = true ∧
    (accept (Expr.gep [exField] exI32) fresh).1 = Expr.gep [ArrowExpr.mk exPoint exP 0] exI32 ∧
    (accept (Expr.gep [exField] exI32) fresh).2.ownership = [] :=
  ⟨rfl, rfl, rfl⟩

/-- Claim C12, amended: when `ArrowifyVisitor::simplify` constructs a
replacement arrow node, it registers that node at the end of the ownership
buffer.  `ArrowifyVisitor::visit(GepExpr&)` does not register the arrow nodes
it constructs: they are stored in their index slots, and the buffer grows only
by what the traversals of the index steps register; with a step whose pointer
has no operand it does not grow at all. -/
theorem arrow_registration (S : Struct) (d : Expr) (t₁ : CType) (i : Nat) (t₂ : CType)
    (v : ArrowifyVisitor) (indices : List Expr) (t : CType) :
    v.simplify (some (Expr.structElement S (Expr.deref d t₁) i t₂))
      = (some (ArrowExpr.mk S (Expr.deref d t₁) i),
          { ownership := v.ownership ++ [some (ArrowExpr.mk S (Expr.deref d t₁) i)] }) ∧
    (accept (Expr.gep indices t) v).2.ownership
      = v.ownership ++ indices.flatMap (fun e => (accept e fresh).2.ownership) ∧
    (∀ (text : String) (ty : CType),
      accept (Expr.gep [Expr.structElement S (Expr.deref (Expr.value text ty) t₁) i t₂] t) v
        = (Expr.gep [ArrowExpr.mk S (Expr.value text ty) i] t, v)) :=
  ⟨rfl, visitIndices_ownership indices v, fun _ _ => rfl⟩

/-- On an index chain whose steps are trees of their own (no operand of a
step is the node of another slot), `ArrowifyVisitor::visit(GepExpr&)` keeps the
length of the chain, and for the step `e` in slot `k`: when `e` is not a
`StructElement` over a `DerefExpr`, slot `k` holds the same node afterwards,
as its own traversal leaves it; when `e` is
`StructElement(S, DerefExpr(p), i)`, slot `k` holds the arrow node built from
it. -/
theorem visitGep_in_place (indices : List Expr) (t : CType) (v : ArrowifyVisitor) (k : Nat)
    (e : Expr) (h : indices[k]? = some e) :
    ∃ idx, (accept (Expr.gep indices t) v).1 = Expr.gep idx t ∧
      idx.length = indices.length ∧
      ((e.isFieldOfDeref = false ∧ idx[k]? = some (accept e fresh).1 ∧
          Expr.sameNode e (accept e fresh).1) ∨
        (∃ S p t₁ i t₂, e = Expr.structElement S (Expr.deref p t₁) i t₂ ∧
          idx[k]? = some (ArrowExpr.mk S (visitChild p fresh).1 i))) := by
  refine ⟨_, accept_gep_fst indices t v, List.length_map _ _, ?_⟩
  rw [List.getElem?_map, h]
  by_cases hm : e.isFieldOfDeref = true
  · obtain ⟨S, p, t₁, i, t₂, rfl⟩ := (Expr.isFieldOfDeref_iff e).1 hm
    refine Or.inr ⟨S, p, t₁, i, t₂, rfl, ?_⟩
    simp only [Option.map_some']
    rw [accept_structElement_fst, visitChild_deref_fst]
    rfl
  · have hf : e.isFieldOfDeref = false := by simpa using hm
    refine Or.inl ⟨hf, ?_, accept_sameNode e fresh⟩
    have hf' : (accept e fresh).1.isFieldOfDeref = false := by
      rw [accept_isFieldOfDeref, hf]
    simp only [Option.map_some']
    rw [arrowStep_of_not_match _ hf']

/-- On an index chain whose steps are trees of their own, a second
`ArrowifyVisitor::visit(GepExpr&)` leaves the index chain as the first one
left it, and after the first visit no index step is a `StructElement` over a
`DerefExpr`. -/
theorem visitGep_idempotent (indices : List Expr) (t : CType) (v w : ArrowifyVisitor) :
    ∃ idx, (accept (Expr.gep indices t) v).1 = Expr.gep idx t ∧
      (accept (Expr.gep idx t) w).1 = Expr.gep idx t ∧
      idx.all (fun e => !e.isFieldOfDeref) = true := by
  refine ⟨_, accept_gep_fst indices t v, ?_, ?_⟩
  · rw [accept_gep_fst, indices_idem]
  · simp [List.all_eq_true, arrowStep_not_match]

/-- An instance on the chain of the two steps `p` and
`StructElement(Point, DerefExpr(p), 0)`, at the slot of `p`, which is left as it
is. -/
theorem visitGep_in_place_witness :
    [exP, exField][0]? = some exP ∧
    ∃ idx, (accept (Expr.gep [exP, exField] exI32) fresh).1 = Expr.gep idx exI32 ∧
      idx.length = [exP, exField].length ∧
      ((exP.isFieldOfDeref = false ∧ idx[0]? = some (accept exP fresh).1 ∧
          Expr.sameNode exP (accept exP fresh).1) ∨
        (∃ S p t₁ i t₂, exP = Expr.structElement S (Expr.deref p t₁) i t₂ ∧
          idx[0]? = some (ArrowExpr.mk S (visitChild p fresh).1 i))) :=
  ⟨rfl, visitGep_in_place [exP, exField] exI32 fresh 0 exP rfl⟩

/-! ## The arrow pass on objects in memory -/

/-- Claim C13, what the code does on a chain whose second step has the node of
the first slot as its operand (the chain of `p->in.y`): once the first slot
has been replaced, the `StructElement` it held is destroyed while the second
step still points at it, and the traversal of the second step reads the
destroyed object, whatever the bound on the depth.  The first step alone, in a
chain of its own, is replaced in its slot. -/
theorem visitGep_shared_chain_dangling :
    exChain.read 4 = some (Obj.gep [2, 3]) ∧
    exChain.read 2 = some (Obj.structElement exOuter 1 0) ∧
    exChain.read 3 = some (Obj.structElement exPoint 2 1) ∧
    replaceSlot 4 0 2 { mem := exChain, ownership := [] }
      = Run.done { mem := { cells := [some (Obj.value "p"), some (Obj.deref 0), none,
          some (Obj.structElement exPoint 2 1), some (Obj.gep [5, 3]),
          some (Obj.arrow exOuter 0 0)] }, ownership := [] } ∧
    (∀ fuel : Nat, acceptAt (fuel + 5) 4 { mem := exChain, ownership := [] } = Run.dangling 2) ∧
    (∀ fuel : Nat, acceptAt (fuel + 5) 3 { mem := exShortChain, ownership := [] }
      = Run.done { mem := { cells := [some (Obj.value "p"), some (Obj.deref 0), none,
          some (Obj.gep [4]), some (Obj.arrow exOuter 0 0)] }, ownership := [] }) :=
  ⟨rfl, rfl, rfl, rfl, fun _ => rfl, fun _ => rfl⟩

/-- Claim C17, what the code does on a chain whose second step, a `RefExpr`,
has the node of the first slot as its operand (the chain of `&(p->in)`): the
first visit reads the `StructElement` it has destroyed, so it leaves no index
chain for a second visit to keep, whatever the bound on the depth. -/
theorem visitGep_twice_shared_chain :
    exRefChain.read 4 = some (Obj.gep [2, 3]) ∧
    exRefChain.read 3 = some (Obj.ref 2) ∧
    (∀ fuel : Nat,
      acceptAt (fuel + 5) 4 { mem := exRefChain, ownership := [] } = Run.dangling 2) ∧
    (∀ fuel : Nat,
      (acceptAt (fuel + 5) 4 { mem := exRefChain, ownership := [] }).bind
        (fun st => acceptAt (fuel + 5) 4 st) = Run.dangling 2) :=
  ⟨rfl, rfl, fun _ => rfl, fun _ => rfl⟩

end Llvm2c
